import Mathlib

/-!
A shallow embedding of the account and messaging subsystem of the
`spring25-ip1-template` server.

The account side embeds `src/server/services/user.service.ts` (the live
variant whose thrown/returned error strings are the ones the repository's
own test suite asserts): the Mongo collection is modelled as a list of
documents in insertion order, `findOne`/`findOneAndDelete`/`findOneAndUpdate`
operate on the first matching document, and each service operation returns
the service's result together with the collection state after the call.

The messaging side embeds `src/server/services/message.service.ts` and the
`addMessageRoute` controller: store failures of `create`/`find` are an
explicit boolean input, and the socket `messageUpdate` emission is recorded
in the route's result.
-/

namespace ChatApp

/-- An account document.  `password := none` models a stored document whose
`password` field is `undefined`. -/
structure User where
  username   : String
  password   : Option String
  dateJoined : Nat
  deriving Repr, DecidableEq

/-- The sanitized view of an account: a `User` minus its `password` field. -/
structure SafeUser where
  username   : String
  dateJoined : Nat
  deriving Repr, DecidableEq

/-- `sanitizeUserForResponse` from `user.service.ts`: drops the `password`
field and keeps the rest of the document. -/
def sanitizeUserForResponse (u : User) : SafeUser :=
  { username := u.username, dateJoined := u.dateJoined }

/-- The users collection, in insertion order. -/
abbrev UserDB := List User

/-- `UserModel.findOne({ username })`: the first document whose `username`
equals the filter, if any. -/
def findOne (db : UserDB) (uname : String) : Option User :=
  db.find? (fun u => u.username == uname)

/-- Login credentials as supplied by the caller. -/
structure UserCredentials where
  username : String
  password : String
  deriving Repr, DecidableEq

/-- `saveUser`: looks up the username; if a document already exists the
service rejects with the duplicate-user error, otherwise the new document is
persisted and returned sanitized. -/
def saveUser (db : UserDB) (user : User) : Except String SafeUser × UserDB :=
  match findOne db user.username with
  | some _ => (.error "Failed to save user: Error: User already exists", db)
  | none   => (.ok (sanitizeUserForResponse user), db ++ [user])

/-- `getUserByUsername`: returns the sanitized document, or the
user-does-not-exist error produced by the catch block. -/
def getUserByUsername (db : UserDB) (uname : String) : Except String SafeUser × UserDB :=
  match findOne db uname with
  | none   => (.error "Error when getting user: Error: User does not exist", db)
  | some u => (.ok (sanitizeUserForResponse u), db)

/-- `loginUser`: finds the document; a defined stored password that differs
from the candidate is rejected, an absent (`undefined`) stored password skips
the comparison entirely. -/
def loginUser (db : UserDB) (creds : UserCredentials) : Except String SafeUser × UserDB :=
  match findOne db creds.username with
  | none   => (.error "Failed to login user: Error: User does not exist", db)
  | some u =>
    match u.password with
    | some p =>
      if p == creds.password then (.ok (sanitizeUserForResponse u), db)
      else (.error "Failed to login user: Error: Invalid password", db)
    | none => (.ok (sanitizeUserForResponse u), db)

/-- `UserModel.findOneAndDelete({ username })`: removes the first matching
document, returning it together with the remaining collection. -/
def findOneAndDelete (db : UserDB) (uname : String) : Option User × UserDB :=
  match db with
  | [] => (none, [])
  | u :: rest =>
    if u.username == uname then (some u, rest)
    else
      let r := findOneAndDelete rest uname
      (r.1, u :: r.2)

/-- `deleteUserByUsername`: deletes the first matching document and returns
it sanitized, or the user-does-not-exist error from the catch block. -/
def deleteUserByUsername (db : UserDB) (uname : String) : Except String SafeUser × UserDB :=
  match findOneAndDelete db uname with
  | (none, _)     => (.error "Failed to delete user: Error: User does not exist", db)
  | (some u, db2) => (.ok (sanitizeUserForResponse u), db2)

/-- A `Partial<User>` update object: each present field overwrites the
document's field. -/
structure UserUpdates where
  username   : Option String := none
  password   : Option (Option String) := none
  dateJoined : Option Nat := none
  deriving Repr, DecidableEq

/-- Applies a partial update to a document, field by field. -/
def applyUpdates (u : User) (upd : UserUpdates) : User :=
  { username   := upd.username.getD u.username
    password   := upd.password.getD u.password
    dateJoined := upd.dateJoined.getD u.dateJoined }

/-- Replaces the first document matching `uname` by its updated version,
returning the updated document and the new collection. -/
def updateFirst (db : UserDB) (uname : String) (upd : UserUpdates) :
    Option (User × UserDB) :=
  match db with
  | [] => none
  | u :: rest =>
    if u.username == uname then
      let u2 := applyUpdates u upd
      some (u2, u2 :: rest)
    else
      match updateFirst rest uname upd with
      | none            => none
      | some (u2, rest2) => some (u2, u :: rest2)

/-- Outcome of the store's `findOneAndUpdate`. -/
inductive StoreUpdateResult where
  | notFound
  | uniqueViolation
  | updated (doc : User) (db : UserDB)
  deriving Repr

/-- Modelled from the spec: the users collection schema (the
`users.model.ts` schema file is not under `src/`) declares a unique index on
`username` ("accounts: id, username (unique index), secret, joinedAt"), so
`findOneAndUpdate` applies the partial update to the first matching document
and fails when the updated document's username would collide with another
document's username. -/
def findOneAndUpdate (db : UserDB) (uname : String) (upd : UserUpdates) :
    StoreUpdateResult :=
  match updateFirst db uname upd with
  | none => .notFound
  | some (u2, db2) =>
    if (findOneAndDelete db uname).2.any (fun w => w.username == u2.username)
    then .uniqueViolation
    else .updated u2 db2

/-- `updateUser`: the service's catch block collapses both the missing-user
throw and a store failure into the same generic error string. -/
def updateUser (db : UserDB) (uname : String) (upd : UserUpdates) :
    Except String SafeUser × UserDB :=
  match findOneAndUpdate db uname upd with
  | .notFound        => (.error "Failed to update user", db)
  | .uniqueViolation => (.error "Failed to update user", db)
  | .updated u2 db2  => (.ok (sanitizeUserForResponse u2), db2)

/-- No two documents in the collection share a username. -/
def distinctUsernames (db : UserDB) : Prop :=
  (db.map User.username).Nodup

/-- The message sent in an `addMessage` request body; a `none` field models a
JSON field that is `undefined`. -/
structure MessageInput where
  msg         : Option String
  msgFrom     : Option String
  msgDateTime : Option Nat
  deriving Repr, DecidableEq

/-- A stored message document; `id` is the `_id` the store assigns on
creation, `msgDateTime` is the timestamp (`Date.getTime()`). -/
structure Message where
  id          : Nat
  msg         : String
  msgFrom     : String
  msgDateTime : Nat
  deriving Repr, DecidableEq

/-- The messages collection, in insertion order. -/
abbrev MessageDB := List Message

/-- `saveMessage`: `MessageModel.create` either fails (the catch block turns
the rejection into an error value) or persists the document, assigning its
final id; no validation happens here. -/
def saveMessage (db : MessageDB) (createFails : Bool) (m : MessageInput) :
    Except String Message × MessageDB :=
  if createFails then
    (.error "Error when saving message: Error: Database error", db)
  else
    let stored : Message :=
      { id := db.length
        msg := m.msg.getD ""
        msgFrom := m.msgFrom.getD ""
        msgDateTime := m.msgDateTime.getD 0 }
    (.ok stored, db ++ [stored])

/-- The comparator of `getMessages`: `msgDateTime.getTime()` ascending. -/
def msgDateLE (a b : Message) : Bool :=
  a.msgDateTime ≤ b.msgDateTime

/-- `getMessages`: reads all messages and sorts them ascending by date with
the runtime's stable `Array.prototype.sort`; a store failure is absorbed and
degraded to the empty list. -/
def getMessages (db : MessageDB) (findFails : Bool) : List Message :=
  if findFails then [] else db.mergeSort msgDateLE

/-- `isRequestValid` from the message controller: only checks that the three
fields of `messageToAdd` are not `undefined`. -/
def isRequestValid (m : MessageInput) : Bool :=
  m.msg.isSome && m.msgFrom.isSome && m.msgDateTime.isSome

/-- `isMessageValid` from the message controller: the same definedness check
on the extracted message. -/
def isMessageValid (m : MessageInput) : Bool :=
  m.msg.isSome && m.msgFrom.isSome && m.msgDateTime.isSome

/-- The observable outcome of one `addMessage` request: the HTTP status, the
response text of the error paths, and the `messageUpdate` socket emission (if
any). -/
structure RouteResult where
  status  : Nat
  body    : String
  emitted : Option Message
  deriving Repr, DecidableEq

/-- `addMessageRoute`: validates the request, saves the message, and on
success emits the stored message over the socket before answering 200; a save
error is rethrown and answered as a 500 with no emission. -/
def addMessageRoute (db : MessageDB) (createFails : Bool) (input : MessageInput) :
    RouteResult × MessageDB :=
  if !isRequestValid input then
    ({ status := 400, body := "Invalid request body", emitted := none }, db)
  else if !isMessageValid input then
    ({ status := 400, body := "Invalid message body", emitted := none }, db)
  else
    match saveMessage db createFails input with
    | (.error e, db2) =>
      ({ status := 500, body := "Error when adding a message: " ++ e, emitted := none }, db2)
    | (.ok m, db2) =>
      ({ status := 200, body := "", emitted := some m }, db2)

/-! ### Basic lemmas about the store model -/

theorem findOne_eq_none_iff (db : UserDB) (uname : String) :
    findOne db uname = none ↔ ∀ w ∈ db, w.username ≠ uname := by
  simp [findOne, List.find?_eq_none]

theorem findOne_isSome_iff (db : UserDB) (uname : String) :
    (findOne db uname).isSome ↔ ∃ w ∈ db, w.username = uname := by
  simp [findOne, List.find?_isSome]

theorem findOneAndDelete_of_absent (db : UserDB) (uname : String)
    (h : ∀ w ∈ db, w.username ≠ uname) :
    findOneAndDelete db uname = (none, db) := by
  induction db with
  | nil => rfl
  | cons u rest ih =>
    have hu : u.username ≠ uname := h u (List.mem_cons_self u rest)
    have hrest := ih (fun w hw => h w (List.mem_cons_of_mem u hw))
    simp [findOneAndDelete, hu, hrest]

theorem updateFirst_of_absent (db : UserDB) (uname : String) (upd : UserUpdates)
    (h : ∀ w ∈ db, w.username ≠ uname) :
    updateFirst db uname upd = none := by
  induction db with
  | nil => rfl
  | cons u rest ih =>
    have hu : u.username ≠ uname := h u (List.mem_cons_self u rest)
    have hrest := ih (fun w hw => h w (List.mem_cons_of_mem u hw))
    simp [updateFirst, hu, hrest]

theorem findOneAndDelete_sublist (db : UserDB) (uname : String) :
    List.Sublist (findOneAndDelete db uname).2 db := by
  induction db with
  | nil => simp [findOneAndDelete]
  | cons u rest ih =>
    by_cases hu : u.username = uname
    · simp [findOneAndDelete, hu]
    · have step := List.Sublist.cons₂ u ih
      simpa [findOneAndDelete, hu] using step

theorem distinct_cons_iff (u : User) (rest : UserDB) :
    distinctUsernames (u :: rest) ↔
      (∀ w ∈ rest, w.username ≠ u.username) ∧ distinctUsernames rest := by
  simp only [distinctUsernames, List.map_cons, List.nodup_cons, List.mem_map]
  constructor
  · rintro ⟨h1, h2⟩
    refine ⟨?_, h2⟩
    intro w hw hww
    exact h1 ⟨w, hw, hww⟩
  · rintro ⟨h1, h2⟩
    refine ⟨?_, h2⟩
    rintro ⟨w, hw, hww⟩
    exact h1 w hw hww

theorem updateFirst_mem (db : UserDB) (uname : String) (upd : UserUpdates)
    (u2 : User) (db2 : UserDB) (h : updateFirst db uname upd = some (u2, db2)) :
    ∀ w ∈ db2, w = u2 ∨ w ∈ db := by
  induction db generalizing u2 db2 with
  | nil => simp [updateFirst] at h
  | cons u rest ih =>
    rcases hr : updateFirst rest uname upd with _ | ⟨v2, rest2⟩
    · by_cases hu : u.username = uname
      · simp [updateFirst, hu, hr] at h
        obtain ⟨h1, h2⟩ := h
        subst h1
        subst h2
        intro w hw
        rcases List.mem_cons.mp hw with hw | hw
        · exact Or.inl hw
        · exact Or.inr (List.mem_cons_of_mem u hw)
      · simp [updateFirst, hu, hr] at h
    · by_cases hu : u.username = uname
      · simp [updateFirst, hu, hr] at h
        obtain ⟨h1, h2⟩ := h
        subst h1
        subst h2
        intro w hw
        rcases List.mem_cons.mp hw with hw | hw
        · exact Or.inl hw
        · exact Or.inr (List.mem_cons_of_mem u hw)
      · simp [updateFirst, hu, hr] at h
        obtain ⟨h1, h2⟩ := h
        subst h1
        subst h2
        intro w hw
        rcases List.mem_cons.mp hw with hw | hw
        · exact Or.inr (by simp [hw])
        · rcases ih v2 rest2 hr w hw with hv | hv
          · exact Or.inl hv
          · exact Or.inr (List.mem_cons_of_mem u hv)

theorem updateFirst_distinct (db : UserDB) (uname : String) (upd : UserUpdates)
    (u2 : User) (db2 : UserDB)
    (hd : distinctUsernames db)
    (h : updateFirst db uname upd = some (u2, db2))
    (hg : ∀ w ∈ (findOneAndDelete db uname).2, w.username ≠ u2.username) :
    distinctUsernames db2 := by
  induction db generalizing u2 db2 with
  | nil => simp [updateFirst] at h
  | cons u rest ih =>
    obtain ⟨hd1, hd2⟩ := (distinct_cons_iff u rest).mp hd
    rcases hr : updateFirst rest uname upd with _ | ⟨v2, rest2⟩ <;>
      by_cases hu : u.username = uname
    · simp [updateFirst, hu, hr] at h
      obtain ⟨h1, h2⟩ := h
      subst h1
      subst h2
      have hg2 : ∀ w ∈ rest, w.username ≠ (applyUpdates u upd).username := by
        intro w hw
        refine hg w ?_
        simpa [findOneAndDelete, hu] using hw
      exact (distinct_cons_iff _ rest).mpr ⟨hg2, hd2⟩
    · simp [updateFirst, hu, hr] at h
    · simp [updateFirst, hu, hr] at h
      obtain ⟨h1, h2⟩ := h
      subst h1
      subst h2
      have hg2 : ∀ w ∈ rest, w.username ≠ (applyUpdates u upd).username := by
        intro w hw
        refine hg w ?_
        simpa [findOneAndDelete, hu] using hw
      exact (distinct_cons_iff _ rest).mpr ⟨hg2, hd2⟩
    · simp [updateFirst, hu, hr] at h
      obtain ⟨h1, h2⟩ := h
      subst h1
      subst h2
      have hgu : u.username ≠ v2.username := by
        refine hg u ?_
        simp [findOneAndDelete, hu]
      have hgrest : ∀ w ∈ (findOneAndDelete rest uname).2, w.username ≠ v2.username := by
        intro w hw
        refine hg w ?_
        simp [findOneAndDelete, hu]
        exact Or.inr hw
      have hrest2 : distinctUsernames rest2 := ih v2 rest2 hd2 hr hgrest
      refine (distinct_cons_iff u rest2).mpr ⟨?_, hrest2⟩
      intro w hw hww
      rcases updateFirst_mem rest uname upd v2 rest2 hr w hw with hv | hv
      · exact hgu ((congrArg User.username hv).symm.trans hww).symm
      · exact hd1 w hv hww


theorem msgDateLE_trans (a b c : Message) :
    msgDateLE a b → msgDateLE b c → msgDateLE a c := by
  simp [msgDateLE]
  omega

theorem msgDateLE_total (a b : Message) :
    msgDateLE a b || msgDateLE b a := by
  simp [msgDateLE]
  omega

/-! ### Claim theorems -/

/-- C1: `saveUser` rejects with the duplicate-user (Conflict) error exactly
when an account with the same username is already stored, leaving the store
unchanged; otherwise it persists the account and returns the stored record
sanitized; it never succeeds while a duplicate is present. -/
theorem saveUser_conflict_on_duplicate (db : UserDB) (u : User) :
    ((∃ w ∈ db, w.username = u.username) →
       saveUser db u = (.error "Failed to save user: Error: User already exists", db)) ∧
    ((∀ w ∈ db, w.username ≠ u.username) →
       saveUser db u = (.ok (sanitizeUserForResponse u), db ++ [u])) ∧
    (∀ r, (saveUser db u).1 = .ok r → ∀ w ∈ db, w.username ≠ u.username) := by
  refine ⟨?_, ?_, ?_⟩
  · intro hdup
    have hsome : (findOne db u.username).isSome :=
      (findOne_isSome_iff db u.username).mpr hdup
    rcases Option.isSome_iff_exists.mp hsome with ⟨w, hw⟩
    simp [saveUser, hw]
  · intro hfresh
    have hnone : findOne db u.username = none :=
      (findOne_eq_none_iff db u.username).mpr hfresh
    simp [saveUser, hnone]
  · intro r hr
    rcases h : findOne db u.username with _ | w
    · exact (findOne_eq_none_iff db u.username).mp h
    · simp [saveUser, h] at hr

/-- C1 witness: on a concrete store, registering a taken username fails with
the duplicate-user error and registering a fresh one persists the record. -/
theorem saveUser_conflict_on_duplicate_witness :
    saveUser [{ username := "alice", password := some "pw", dateJoined := 0 }]
        { username := "alice", password := some "x", dateJoined := 1 }
      = (.error "Failed to save user: Error: User already exists",
         [{ username := "alice", password := some "pw", dateJoined := 0 }]) ∧
    saveUser [{ username := "alice", password := some "pw", dateJoined := 0 }]
        { username := "bob", password := some "x", dateJoined := 1 }
      = (.ok { username := "bob", dateJoined := 1 },
         [{ username := "alice", password := some "pw", dateJoined := 0 },
          { username := "bob", password := some "x", dateJoined := 1 }]) := by
  constructor
  · exact (saveUser_conflict_on_duplicate
      [{ username := "alice", password := some "pw", dateJoined := 0 }]
      { username := "alice", password := some "x", dateJoined := 1 }).1
      ⟨{ username := "alice", password := some "pw", dateJoined := 0 }, by simp, rfl⟩
  · exact (saveUser_conflict_on_duplicate
      [{ username := "alice", password := some "pw", dateJoined := 0 }]
      { username := "bob", password := some "x", dateJoined := 1 }).2.1
      (by intro w hw; simp at hw; subst hw; decide)

/-- C2 counterexample: on a store holding a single account whose stored
secret is absent, `loginUser` succeeds for the candidate password "pw" even
though no stored secret equals "pw", refuting "succeeds iff the stored
secret is exactly string-equal to the candidate". -/
theorem loginUser_succeeds_without_matching_secret :
    findOne [{ username := "alice", password := none, dateJoined := 0 }] "alice"
      = some { username := "alice", password := none, dateJoined := 0 } ∧
    (loginUser [{ username := "alice", password := none, dateJoined := 0 }]
        { username := "alice", password := "pw" }).1
      = .ok { username := "alice", dateJoined := 0 } ∧
    ({ username := "alice", password := none, dateJoined := 0 } : User).password ≠ some "pw" := by
  refine ⟨rfl, rfl, by decide⟩

/-- C2 amended: `loginUser` succeeds iff an account with the given username
is found and its stored secret is either absent (comparison skipped) or
exactly, case-sensitively string-equal to the candidate; on success it
returns that account sanitized. -/
theorem loginUser_success_characterization (db : UserDB) (creds : UserCredentials) :
    ((∃ r, (loginUser db creds).1 = .ok r) ↔
      (∃ u, findOne db creds.username = some u ∧
        (u.password = none ∨ u.password = some creds.password))) ∧
    (∀ u, findOne db creds.username = some u →
      (u.password = none ∨ u.password = some creds.password) →
      loginUser db creds = (.ok (sanitizeUserForResponse u), db)) := by
  constructor
  · constructor
    · rintro ⟨r, hr⟩
      rcases h : findOne db creds.username with _ | u
      · simp [loginUser, h] at hr
      · refine ⟨u, rfl, ?_⟩
        rcases hp : u.password with _ | p
        · exact Or.inl rfl
        · by_cases hpw : p = creds.password
          · exact Or.inr (congrArg some hpw)
          · simp [loginUser, h, hp, hpw] at hr
    · rintro ⟨u, hu, hp | hp⟩
      · exact ⟨sanitizeUserForResponse u, by simp [loginUser, hu, hp]⟩
      · exact ⟨sanitizeUserForResponse u, by simp [loginUser, hu, hp]⟩
  · intro u hu hp
    rcases hp with hp | hp
    · simp [loginUser, hu, hp]
    · simp [loginUser, hu, hp]

/-- C2 amended witness: a stored secret equal to the candidate logs in, on a
concrete store. -/
theorem loginUser_success_characterization_witness :
    loginUser [{ username := "alice", password := some "pw", dateJoined := 0 }]
        { username := "alice", password := "pw" }
      = (.ok { username := "alice", dateJoined := 0 },
         [{ username := "alice", password := some "pw", dateJoined := 0 }]) :=
  (loginUser_success_characterization
      [{ username := "alice", password := some "pw", dateJoined := 0 }]
      { username := "alice", password := "pw" }).2
    { username := "alice", password := some "pw", dateJoined := 0 } rfl (Or.inr rfl)

/-- C3: every success value of the five account operations is produced by
the sanitizing projection `sanitizeUserForResponse`, which removes the
password field. -/
theorem account_ops_sanitize (db : UserDB) (u : User) (uname : String)
    (creds : UserCredentials) (upd : UserUpdates) (r : SafeUser) :
    ((saveUser db u).1 = .ok r → ∃ w, r = sanitizeUserForResponse w) ∧
    ((loginUser db creds).1 = .ok r → ∃ w, r = sanitizeUserForResponse w) ∧
    ((getUserByUsername db uname).1 = .ok r → ∃ w, r = sanitizeUserForResponse w) ∧
    ((deleteUserByUsername db uname).1 = .ok r → ∃ w, r = sanitizeUserForResponse w) ∧
    ((updateUser db uname upd).1 = .ok r → ∃ w, r = sanitizeUserForResponse w) := by
  refine ⟨?_, ?_, ?_, ?_, ?_⟩
  · intro hr
    rcases h : findOne db u.username with _ | w
    · refine ⟨u, ?_⟩
      simp [saveUser, h] at hr
      exact hr.symm
    · simp [saveUser, h] at hr
  · intro hr
    rcases h : findOne db creds.username with _ | w
    · simp [loginUser, h] at hr
    · refine ⟨w, ?_⟩
      rcases hp : w.password with _ | p
      · simp [loginUser, h, hp] at hr
        exact hr.symm
      · by_cases hpw : p = creds.password
        · simp [loginUser, h, hp, hpw] at hr
          exact hr.symm
        · simp [loginUser, h, hp, hpw] at hr
  · intro hr
    rcases h : findOne db uname with _ | w
    · simp [getUserByUsername, h] at hr
    · refine ⟨w, ?_⟩
      simp [getUserByUsername, h] at hr
      exact hr.symm
  · intro hr
    rcases h : findOneAndDelete db uname with ⟨_ | w, db2⟩
    · simp [deleteUserByUsername, h] at hr
    · refine ⟨w, ?_⟩
      simp [deleteUserByUsername, h] at hr
      exact hr.symm
  · intro hr
    rcases h : findOneAndUpdate db uname upd with _ | _ | ⟨w, db2⟩
    · simp [updateUser, h] at hr
    · simp [updateUser, h] at hr
    · refine ⟨w, ?_⟩
      simp [updateUser, h] at hr
      exact hr.symm

/-- C3 witness: on a concrete store, a successful lookup's value is in the
range of the sanitizing projection. -/
theorem account_ops_sanitize_witness :
    ∃ w, ({ username := "alice", dateJoined := 0 } : SafeUser) = sanitizeUserForResponse w :=
  (account_ops_sanitize [{ username := "alice", password := some "pw", dateJoined := 0 }]
      { username := "alice", password := some "pw", dateJoined := 0 } "alice"
      { username := "alice", password := "pw" } {} { username := "alice", dateJoined := 0 }).2.2.1
    rfl

/-- C7: the repository's own controller test expects a 400 rejection for an
empty message body, but `isRequestValid`/`isMessageValid` only test the three
fields against `undefined`, so an empty-string body passes validation, is
persisted by `saveMessage`, broadcast, and answered 200. -/
theorem addMessageRoute_accepts_empty_body :
    isRequestValid { msg := some "", msgFrom := some "User1", msgDateTime := some 20240604 }
      = true ∧
    isMessageValid { msg := some "", msgFrom := some "User1", msgDateTime := some 20240604 }
      = true ∧
    addMessageRoute [] false
        { msg := some "", msgFrom := some "User1", msgDateTime := some 20240604 }
      = ({ status := 200, body := "",
           emitted := some { id := 0, msg := "", msgFrom := "User1", msgDateTime := 20240604 } },
         [{ id := 0, msg := "", msgFrom := "User1", msgDateTime := 20240604 }]) :=
  ⟨rfl, rfl, rfl⟩

/-- C4: on a working store, `getMessages` returns all stored messages,
sorted ascending by `msgDateTime`, and the sort is stable: for every
timestamp, the messages carrying it appear in the result in exactly their
stored order. -/
theorem getMessages_sorted_and_stable (db : MessageDB) :
    (getMessages db false).Perm db ∧
    (getMessages db false).Pairwise (fun a b => a.msgDateTime ≤ b.msgDateTime) ∧
    (∀ t, (getMessages db false).filter (fun m => m.msgDateTime == t)
        = db.filter (fun m => m.msgDateTime == t)) := by
  have hget : getMessages db false = db.mergeSort msgDateLE := rfl
  refine ⟨?_, ?_, ?_⟩
  · rw [hget]
    exact List.mergeSort_perm db msgDateLE
  · rw [hget]
    have h := List.sorted_mergeSort msgDateLE_trans msgDateLE_total db
    exact h.imp (fun hab => by simpa [msgDateLE] using hab)
  · intro t
    rw [hget]
    set p : Message → Bool := fun m => m.msgDateTime == t with hp
    have hpair : (db.filter p).Pairwise (fun a b => msgDateLE a b = true) := by
      apply List.pairwise_of_forall_mem_list
      intro a ha b hb
      have ha2 := (List.mem_filter.mp ha).2
      have hb2 := (List.mem_filter.mp hb).2
      simp [hp] at ha2 hb2
      simp [msgDateLE, ha2, hb2]
    have hsub : List.Sublist (db.filter p) (db.mergeSort msgDateLE) :=
      List.sublist_mergeSort msgDateLE_trans msgDateLE_total hpair (List.filter_sublist db)
    have hsub2 : List.Sublist ((db.filter p).filter p) ((db.mergeSort msgDateLE).filter p) :=
      hsub.filter p
    have hff : (db.filter p).filter p = db.filter p := by
      simp [List.filter_filter]
    rw [hff] at hsub2
    have hlen : ((db.mergeSort msgDateLE).filter p).length = (db.filter p).length :=
      ((List.mergeSort_perm db msgDateLE).filter p).length_eq
    exact (hsub2.eq_of_length (by omega)).symm

/-- C5: starting from a store in which all usernames are distinct, each of
the five account operations leaves the store with all usernames still
distinct; in particular an update that would duplicate another account's
username is rejected by the store's unique index and changes nothing. -/
theorem account_ops_preserve_distinct (db : UserDB) (u : User) (uname : String)
    (creds : UserCredentials) (upd : UserUpdates) (h : distinctUsernames db) :
    distinctUsernames (saveUser db u).2 ∧
    distinctUsernames (loginUser db creds).2 ∧
    distinctUsernames (getUserByUsername db uname).2 ∧
    distinctUsernames (deleteUserByUsername db uname).2 ∧
    distinctUsernames (updateUser db uname upd).2 := by
  refine ⟨?_, ?_, ?_, ?_, ?_⟩
  · rcases hf : findOne db u.username with _ | w
    · have hfresh := (findOne_eq_none_iff db u.username).mp hf
      have hnotmem : u.username ∉ db.map User.username := by
        intro hmem
        rcases List.mem_map.mp hmem with ⟨w, hw, hww⟩
        exact hfresh w hw hww
      have hmap : ((db ++ [u]).map User.username) = db.map User.username ++ [u.username] := by
        simp
      simp only [saveUser, hf, distinctUsernames, hmap]
      rw [List.nodup_append]
      refine ⟨h, List.nodup_singleton _, ?_⟩
      intro a ha hb
      simp at hb
      exact hnotmem (hb ▸ ha)
    · simp only [saveUser, hf]
      exact h
  · rcases hf : findOne db creds.username with _ | w
    · simp only [loginUser, hf]
      exact h
    · rcases hp : w.password with _ | p
      · simp only [loginUser, hf, hp]
        exact h
      · by_cases hpw : p = creds.password
        · simp [loginUser, hf, hp, hpw]
          exact h
        · simp [loginUser, hf, hp, hpw]
          exact h
  · rcases hf : findOne db uname with _ | w
    · simp only [getUserByUsername, hf]
      exact h
    · simp only [getUserByUsername, hf]
      exact h
  · rcases hfd : findOneAndDelete db uname with ⟨r, db2⟩
    have hsub : List.Sublist db2 db := by
      have hs := findOneAndDelete_sublist db uname
      rw [hfd] at hs
      exact hs
    rcases r with _ | w
    · simp only [deleteUserByUsername, hfd]
      exact h
    · simp only [deleteUserByUsername, hfd]
      exact (hsub.map User.username).nodup h
  · rcases hfu : updateFirst db uname upd with _ | ⟨u2, db2⟩
    · simp only [updateUser, findOneAndUpdate, hfu]
      exact h
    · by_cases hg : (findOneAndDelete db uname).2.any (fun w => w.username == u2.username)
      · simp only [updateUser, findOneAndUpdate, hfu, hg, if_pos]
        exact h
      · have hg2 : ∀ w ∈ (findOneAndDelete db uname).2, w.username ≠ u2.username := by
          intro w hw hww
          exact hg (List.any_eq_true.mpr ⟨w, hw, by simp [hww]⟩)
        simp only [updateUser, findOneAndUpdate, hfu, hg, if_neg, Bool.false_eq_true,
          not_false_iff]
        exact updateFirst_distinct db uname upd u2 db2 h hfu hg2

/-- C5 witness: a concrete distinct store stays distinct under each
operation. -/
theorem account_ops_preserve_distinct_witness :
    distinctUsernames
      (saveUser [{ username := "alice", password := some "pw", dateJoined := 0 }]
        { username := "bob", password := some "x", dateJoined := 1 }).2 ∧
    distinctUsernames
      (updateUser [{ username := "alice", password := some "pw", dateJoined := 0 }]
        "alice" { password := some (some "new") }).2 :=
  ⟨(account_ops_preserve_distinct
      [{ username := "alice", password := some "pw", dateJoined := 0 }]
      { username := "bob", password := some "x", dateJoined := 1 } "alice"
      { username := "alice", password := "pw" } { password := some (some "new") }
      (by simp [distinctUsernames])).1,
   (account_ops_preserve_distinct
      [{ username := "alice", password := some "pw", dateJoined := 0 }]
      { username := "bob", password := some "x", dateJoined := 1 } "alice"
      { username := "alice", password := "pw" } { password := some (some "new") }
      (by simp [distinctUsernames])).2.2.2.2⟩

/-- C6: the `messageUpdate` emission happens exactly when the append
succeeds: an emitted message is the persisted one (with its stored id),
answered 200 with the message appended to the log; a successful append on a
valid request always emits; a failed append emits nothing, persists nothing,
and surfaces the failure as a 500 error response. -/
theorem messageUpdate_iff_append_success (db : MessageDB) (cf : Bool)
    (input : MessageInput) :
    (∀ m, (addMessageRoute db cf input).1.emitted = some m →
        (saveMessage db cf input).1 = .ok m ∧
        (addMessageRoute db cf input).1.status = 200 ∧
        (addMessageRoute db cf input).2 = db ++ [m]) ∧
    (∀ m, isRequestValid input = true → (saveMessage db cf input).1 = .ok m →
        (addMessageRoute db cf input).1.emitted = some m) ∧
    (∀ e, isRequestValid input = true → (saveMessage db cf input).1 = .error e →
        (addMessageRoute db cf input).1.emitted = none ∧
        (addMessageRoute db cf input).1.status = 500 ∧
        (addMessageRoute db cf input).1.body = "Error when adding a message: " ++ e ∧
        (addMessageRoute db cf input).2 = db) := by
  by_cases hv : isRequestValid input = true
  · have hv2 : isMessageValid input = true := hv
    cases cf with
    | false =>
      refine ⟨?_, ?_, ?_⟩
      · intro m hm
        simp [addMessageRoute, hv, hv2, saveMessage] at hm ⊢
        simp [hm]
      · intro m _ hm
        simp [saveMessage] at hm
        simp [addMessageRoute, hv, hv2, saveMessage, hm]
      · intro e _ he
        simp [saveMessage] at he
    | true =>
      refine ⟨?_, ?_, ?_⟩
      · intro m hm
        simp [addMessageRoute, hv, hv2, saveMessage] at hm
      · intro m _ hm
        simp [saveMessage] at hm
      · intro e _ he
        simp [saveMessage] at he
        simp [addMessageRoute, hv, hv2, saveMessage, he]
  · have hv2 : ¬ isMessageValid input = true := hv
    refine ⟨?_, ?_, ?_⟩
    · intro m hm
      simp [addMessageRoute, hv] at hm
    · intro m hvalid
      exact absurd hvalid hv
    · intro e hvalid
      exact absurd hvalid hv

/-- C6 witness: on a concrete valid request, a working store appends and
emits the stored message, and a failing store emits nothing and answers 500
with the store's error. -/
theorem messageUpdate_iff_append_success_witness :
    (addMessageRoute [] false
        { msg := some "Hello", msgFrom := some "User1", msgDateTime := some 7 }).1.emitted
      = some { id := 0, msg := "Hello", msgFrom := "User1", msgDateTime := 7 } ∧
    (addMessageRoute [] true
        { msg := some "Hello", msgFrom := some "User1", msgDateTime := some 7 }).1.emitted
      = none ∧
    (addMessageRoute [] true
        { msg := some "Hello", msgFrom := some "User1", msgDateTime := some 7 }).1.status
      = 500 := by
  refine ⟨?_, ?_, ?_⟩
  · exact (messageUpdate_iff_append_success [] false
      { msg := some "Hello", msgFrom := some "User1", msgDateTime := some 7 }).2.1
      { id := 0, msg := "Hello", msgFrom := "User1", msgDateTime := 7 } rfl rfl
  · exact ((messageUpdate_iff_append_success [] true
      { msg := some "Hello", msgFrom := some "User1", msgDateTime := some 7 }).2.2
      "Error when saving message: Error: Database error" rfl rfl).1
  · exact ((messageUpdate_iff_append_success [] true
      { msg := some "Hello", msgFrom := some "User1", msgDateTime := some 7 }).2.2
      "Error when saving message: Error: Database error" rfl rfl).2.1

/-- C8: when the underlying find fails, `getMessages` absorbs the failure and
returns the empty list as a successful result; its return type is a plain
list, so the operation never fails outward. -/
theorem getMessages_store_failure_absorbed (db : MessageDB) :
    getMessages db true = [] := rfl

/-- C9 counterexample: `updateUser` surfaces the same generic error value for
a missing username as for a store-level unique-index failure, and that value,
unlike the one `deleteUserByUsername` surfaces, does not carry the
user-does-not-exist marker — so the NotFound kind is not preserved in the
failure surfaced by `updateUser`. -/
theorem updateUser_collapses_error_kinds :
    (updateUser [] "ghost" { password := some (some "x") }).1
      = .error "Failed to update user" ∧
    (updateUser [{ username := "alice", password := some "a", dateJoined := 0 },
        { username := "bob", password := some "b", dateJoined := 1 }] "bob"
        { username := some "alice" }).1
      = .error "Failed to update user" ∧
    (deleteUserByUsername [] "ghost").1
      = .error "Failed to delete user: Error: User does not exist" ∧
    "Failed to update user" ≠ "Failed to delete user: Error: User does not exist" :=
  ⟨rfl, rfl, rfl, by decide⟩

/-- C9 amended: on a username with no stored account, each of
`getUserByUsername`, `deleteUserByUsername` and `updateUser` fails and leaves
the store unchanged — never a Conflict, never a silent no-op success; get and
delete surface errors carrying the NotFound marker, while `updateUser`
surfaces the generic "Failed to update user", which does not preserve the
NotFound kind. -/
theorem missing_username_ops_fail (db : UserDB) (uname : String) (upd : UserUpdates)
    (h : ∀ w ∈ db, w.username ≠ uname) :
    getUserByUsername db uname
      = (.error "Error when getting user: Error: User does not exist", db) ∧
    deleteUserByUsername db uname
      = (.error "Failed to delete user: Error: User does not exist", db) ∧
    updateUser db uname upd = (.error "Failed to update user", db) := by
  have hfind : findOne db uname = none := (findOne_eq_none_iff db uname).mpr h
  have hdel := findOneAndDelete_of_absent db uname h
  have hupd := updateFirst_of_absent db uname upd h
  refine ⟨?_, ?_, ?_⟩
  · simp [getUserByUsername, hfind]
  · simp [deleteUserByUsername, hdel]
  · simp [updateUser, findOneAndUpdate, hupd]

/-- C9 amended witness: the three operations on an empty store and the
username "ghost". -/
theorem missing_username_ops_fail_witness :
    getUserByUsername [] "ghost"
      = (.error "Error when getting user: Error: User does not exist", []) ∧
    deleteUserByUsername [] "ghost"
      = (.error "Failed to delete user: Error: User does not exist", []) ∧
    updateUser [] "ghost" { password := some (some "x") }
      = (.error "Failed to update user", []) :=
  missing_username_ops_fail [] "ghost" { password := some (some "x") }
    (by intro w hw; simp at hw)

/-- C10: when the stored record carries no password field, `loginUser` skips
the password comparison and succeeds with the sanitized record, whatever
candidate password the caller supplies. -/
theorem loginUser_skips_absent_password (db : UserDB) (creds : UserCredentials)
    (u : User) (h1 : findOne db creds.username = some u) (h2 : u.password = none) :
    loginUser db creds = (.ok (sanitizeUserForResponse u), db) := by
  simp [loginUser, h1, h2]

/-- C10 witness: concrete store with an absent stored password; login
succeeds for an arbitrary candidate password. -/
theorem loginUser_skips_absent_password_witness :
    loginUser [{ username := "alice", password := none, dateJoined := 0 }]
        { username := "alice", password := "anything" }
      = (.ok { username := "alice", dateJoined := 0 },
         [{ username := "alice", password := none, dateJoined := 0 }]) :=
  loginUser_skips_absent_password
    [{ username := "alice", password := none, dateJoined := 0 }]
    { username := "alice", password := "anything" }
    { username := "alice", password := none, dateJoined := 0 } rfl rfl

end ChatApp
